import Mathlib

/-!
# nheko: message input widget and application bootstrap

A shallow embedding of `src/TextInputWidget.cc` (`onSendButtonClicked`,
`parseEmoteCommand`) and of `src/main.cpp` (`setupProxy`, `main`, the
`aboutToQuit` handler), with the properties proved about them.

Qt value types are modelled by their documented behaviour:
* a `QString` is a Lean `String`, read through its list of characters;
* a `QVariant` returned by `QSettings::value` is an `Option String`
  (`none` is the invalid variant of a missing key);
* `QSettings` is a finite map from keys to string values, as in the INI
  format that the configuration comment of `setupProxy` documents.
-/

namespace Nheko

/-! ## Qt strings -/

/-- Whitespace test of `QChar::isSpace`: the ASCII characters tab, line feed,
vertical tab, form feed, carriage return and space, then U+0085, U+00A0 and
the Unicode separator categories Zs, Zl and Zp. -/
def QChar.isSpace (c : Char) : Bool :=
  let u := c.toNat
  u == 0x20 || (decide (0x09 ≤ u) && decide (u ≤ 0x0d)) || u == 0x85 || u == 0xa0 ||
    u == 0x1680 || (decide (0x2000 ≤ u) && decide (u ≤ 0x200a)) ||
    u == 0x2028 || u == 0x2029 || u == 0x202f || u == 0x205f || u == 0x3000

/-- Character-level body of `QString::trimmed`: whitespace is removed from the
start and from the end. -/
def trimmedChars (l : List Char) : List Char :=
  ((l.dropWhile QChar.isSpace).reverse.dropWhile QChar.isSpace).reverse

/-- Embedding of `QString::trimmed`. -/
def QString.trimmed (s : String) : String := ⟨trimmedChars s.data⟩

/-- Embedding of `QString::isEmpty`. -/
def QString.isEmpty (s : String) : Bool := s.data.isEmpty

/-- Embedding of `QString::size`, an `int` in Qt 5. -/
def QString.size (s : String) : Int := s.data.length

/-- Embedding of `QString::startsWith` (case sensitive). -/
def QString.startsWith (s p : String) : Bool := p.data.isPrefixOf s.data

/-- Embedding of `QString::right(n)`: the `n` rightmost characters; the entire
string when `n` is negative or at least `size()`. -/
def QString.right (s : String) (n : Int) : String :=
  if n < 0 ∨ QString.size s ≤ n then s
  else ⟨s.data.drop (s.data.length - n.toNat)⟩

/-! ## TextInputWidget -/

/-- The constant `EMOTE_COMMAND` of `TextInputWidget.h`. -/
def EMOTE_COMMAND : String := "/me "

/-- Signals of `TextInputWidget` that `onSendButtonClicked` can emit. -/
inductive Signal where
  | sendTextMessage (msg : String)
  | sendEmoteMessage (msg : String)
  deriving DecidableEq, Repr

/-- The payload carried by a signal. -/
def Signal.payload : Signal → String
  | .sendTextMessage m => m
  | .sendEmoteMessage m => m

/-- Embedding of `TextInputWidget::parseEmoteCommand`. -/
def parseEmoteCommand (cmd : String) : String :=
  let text := QString.trimmed (QString.right cmd (QString.size cmd - QString.size EMOTE_COMMAND))
  if !QString.isEmpty text then text else ""

/-- Result of one click on the send button: the signals emitted, in order, and
the text the input field holds afterwards. -/
structure SendResult where
  emitted : List Signal
  input : String
  deriving DecidableEq, Repr

/-- Embedding of `TextInputWidget::onSendButtonClicked`; `input` is the plain
text of the input field's document. -/
def onSendButtonClicked (input : String) : SendResult :=
  let msgText := QString.trimmed input
  if QString.isEmpty msgText then
    { emitted := [], input := input }
  else if QString.startsWith msgText EMOTE_COMMAND then
    let text := parseEmoteCommand msgText
    if !QString.isEmpty text then
      { emitted := [Signal.sendEmoteMessage text], input := "" }
    else
      { emitted := [], input := "" }
  else
    { emitted := [Signal.sendTextMessage msgText], input := "" }

/-! ## Settings store -/

/-- Embedding of `QVariant::toString` on the result of `QSettings::value`:
the empty string for the invalid variant of a missing key. -/
def QVariant.toString (v : Option String) : String := v.getD ""

/-- The characters of a number text after its optional sign. -/
def unsignedPart (t : List Char) : List Char :=
  if t.head? == some '-' || t.head? == some '+' then t.drop 1 else t

/-- Embedding of `QString::toInt` (base 10): surrounding whitespace is ignored,
one sign is accepted, and the result is 0 when the text is not a decimal
number or does not fit a 32-bit `int`. -/
def QString.toInt (s : String) : Int :=
  let t := trimmedChars s.data
  let neg := t.head? == some '-'
  let ds := unsignedPart t
  if ds.isEmpty || !ds.all Char.isDigit then 0
  else
    let n : Int := Int.ofNat (ds.foldl (fun a c => 10 * a + (c.toNat - 48)) 0)
    let v := if neg then -n else n
    if v < -2147483648 ∨ 2147483647 < v then 0 else v

/-- Embedding of `QVariant::toInt` on the result of `QSettings::value`: 0 for
the invalid variant of a missing key. -/
def QVariant.toInt : Option String → Int
  | none => 0
  | some s => QString.toInt s

/-- Embedding of `QVariant::toBool` on a string value: false for the empty
string, for "0" and for "false" in any letter case. -/
def QVariant.toBool : Option String → Bool
  | none => false
  | some s => !(s.data.isEmpty || s == "0" || s.data.map Char.toLower == "false".data)

/-- The settings store behind `QSettings`: each key has at most one value. -/
structure QSettings where
  entry : String → Option String

/-- A store holding the listed entries (the first entry of a key counts). -/
def QSettings.ofList (l : List (String × String)) : QSettings := ⟨fun k => l.lookup k⟩

/-- Embedding of `QSettings::contains`. -/
def QSettings.contains (s : QSettings) (key : String) : Bool := (s.entry key).isSome

/-- Embedding of `QSettings::value` without a default. -/
def QSettings.value (s : QSettings) (key : String) : Option String := s.entry key

/-- Embedding of `QSettings::setValue` with a string value. -/
def QSettings.setValue (s : QSettings) (key value : String) : QSettings :=
  ⟨fun k => if k = key then some value else s.entry k⟩

/-- Embedding of `QSettings::remove`: removes the setting `key` and every
sub-setting of `key`. -/
def QSettings.remove (s : QSettings) (key : String) : QSettings :=
  ⟨fun k => if k = key ∨ (key.data ++ ['/']).isPrefixOf k.data = true then none else s.entry k⟩

/-! ## Network proxy -/

/-- The enumeration `QNetworkProxy::ProxyType`. -/
inductive ProxyType where
  | DefaultProxy
  | Socks5Proxy
  | NoProxy
  | HttpProxy
  | HttpCachingProxy
  | FtpCachingProxy
  deriving DecidableEq, Repr

/-- The fields of a `QNetworkProxy`; the port is a `quint16`. -/
structure QNetworkProxy where
  type : ProxyType
  hostName : String
  port : Nat
  user : String
  password : String
  deriving DecidableEq, Repr

/-- A default-constructed `QNetworkProxy`. -/
def QNetworkProxy.default : QNetworkProxy :=
  { type := ProxyType.DefaultProxy, hostName := "", port := 0, user := "", password := "" }

/-- Embedding of `QNetworkProxy::setPort(quint16)` applied to an `int`: the
argument is converted to 16 bits unsigned. -/
def QNetworkProxy.setPort (p : QNetworkProxy) (port : Int) : QNetworkProxy :=
  { p with port := (port % 65536).toNat }

/-- What `setupProxy` leaves behind: the settings store, the flag given to
`QNetworkProxyFactory::setUseSystemConfiguration`, the proxy handed to
`QNetworkProxy::setApplicationProxy` (if any) and the messages sent to
`nhlog::net()->error`. -/
structure ProxySetup where
  settings : QSettings
  useSystemConfiguration : Bool
  applicationProxy : Option QNetworkProxy
  netErrors : List String

/-- Lines 113-130 of `setupProxy`: the old `user/proxy/socks/*` format is
transformed into the new one. -/
def transformOldFormat (settings : QSettings) : QSettings :=
  if settings.contains "user/proxy/socks/host" then
    let settings := settings.setValue "user/proxy/host"
      (QVariant.toString (settings.value "user/proxy/socks/host"))
    let settings := settings.remove "user/proxy/socks/host"
    let settings :=
      if settings.contains "user/proxy/socks/port" then
        (settings.setValue "user/proxy/port"
          (QVariant.toString (settings.value "user/proxy/socks/port"))).remove
            "user/proxy/socks/port"
      else settings
    let settings :=
      if settings.contains "user/proxy/socks/user" then
        (settings.setValue "user/proxy/user"
          (QVariant.toString (settings.value "user/proxy/socks/user"))).remove
            "user/proxy/socks/user"
      else settings
    let settings :=
      if settings.contains "user/proxy/socks/password" then
        (settings.setValue "user/proxy/password"
          (QVariant.toString (settings.value "user/proxy/socks/password"))).remove
            "user/proxy/socks/password"
      else settings
    settings.setValue "user/proxy/type" "socks5"
  else settings

/-- Lines 142-147 of `setupProxy`: host, port and credentials are copied into
the proxy whose type has been chosen. -/
def fillProxy (settings : QSettings) (proxy : QNetworkProxy) : QNetworkProxy :=
  let proxy := { proxy with hostName := QVariant.toString (settings.value "user/proxy/host") }
  let proxy := proxy.setPort (QVariant.toInt (settings.value "user/proxy/port"))
  let proxy :=
    if settings.contains "user/proxy/user" then
      { proxy with user := QVariant.toString (settings.value "user/proxy/user") }
    else proxy
  let proxy :=
    if settings.contains "user/proxy/socks/password" then
      { proxy with password := QVariant.toString (settings.value "user/proxy/password") }
    else proxy
  proxy

/-- Embedding of `setupProxy`; `stored` is the settings store it opens. -/
def setupProxy (stored : QSettings) : ProxySetup :=
  let settings := transformOldFormat stored
  if settings.contains "user/proxy/host" then
    if QVariant.toString (settings.value "user/proxy/type") = "socks5" then
      { settings := settings, useSystemConfiguration := true,
        applicationProxy :=
          some (fillProxy settings { QNetworkProxy.default with type := ProxyType.Socks5Proxy }),
        netErrors := [] }
    else if QVariant.toString (settings.value "user/proxy/type") = "http" then
      { settings := settings, useSystemConfiguration := true,
        applicationProxy :=
          some (fillProxy settings { QNetworkProxy.default with type := ProxyType.HttpProxy }),
        netErrors := [] }
    else
      { settings := settings, useSystemConfiguration := true,
        applicationProxy := none,
        netErrors := ["try to configure a proxy with unknown type"] }
  else
    { settings := settings, useSystemConfiguration := true,
      applicationProxy := none, netErrors := [] }

/-! ## Application bootstrap -/

/-- Observable steps of `main` and of the `aboutToQuit` handler, one per call
in the source. -/
inductive Event where
  | runGuardTryToRun (result : Bool)
  | qApplicationConstructed
  | msgBoxSetText (text : String)
  | msgBoxExec
  | qputenv (name value : String)
  | setApplicationName (name : String)
  | setApplicationVersion (version : String)
  | setOrganizationName (name : String)
  | setAttributeUseHighDpiPixmaps
  | parserProcess
  | addApplicationFont (path : String)
  | setWindowIcon (path : String)
  | setUseSystemConfiguration (enable : Bool)
  | netError (msg : String)
  | setApplicationProxy (proxy : QNetworkProxy)
  | httpInit
  | createCacheDirectory (created : Bool)
  | registerSignalHandlers
  | nhlogInit (path : String) (ok : Bool)
  | setFont (family : String) (size : Int)
  | installTranslator (name : String)
  | mainWindowConstructed
  | mainWindowMove
  | mainWindowShow
  | connectAboutToQuit
  | macHelperMenus
  | uiInfo (msg : String)
  | appExec
  | saveCurrentWindowSize
  | netDebug (msg : String)
  | clientClose (force : Bool)
  deriving DecidableEq, Repr

/-- The calls `setupProxy` makes, in source order: the system configuration
flag first, then either the error message or the application proxy. -/
def ProxySetup.events (r : ProxySetup) : List Event :=
  [Event.setUseSystemConfiguration r.useSystemConfiguration] ++
    r.netErrors.map Event.netError ++
    (match r.applicationProxy with
     | some proxy => [Event.setApplicationProxy proxy]
     | none => [])

/-- Target platform, for the conditional blocks of `main`. -/
inductive Platform where
  | linux
  | windows
  | freebsd
  | mac
  | other
  deriving DecidableEq, Repr

/-- What `main` observes of the value of `utils::scaleFactor()`: whether it
equals -1, equals 1, or is another number (with its `QString::number` text). -/
inductive ScaleFactor where
  | unset
  | one
  | other (text : String)
  deriving DecidableEq, Repr

/-- Everything one run of `main` reads from outside. -/
structure Env where
  platform : Platform
  tryToRun : Bool
  qtScaleFactorSet : Bool
  scaleFactor : ScaleFactor
  version : String
  parserExit : Option Int
  settings : QSettings
  cacheLocation : String
  mkpathOk : Bool
  logInitOk : Bool
  lang : String
  execCode : Int

/-- How a run of `main` ends: a return from `main`, a call of `exit`, or an
exception nobody catches. -/
inductive Outcome where
  | returned (code : Int)
  | exited (code : Int)
  | uncaught (what : String)
  deriving DecidableEq, Repr

/-- One run of `main`: its steps in order, how it ended, and the settings
store it left. -/
structure Run where
  trace : List Event
  outcome : Outcome
  settings : QSettings

/-- Lines 167-177 of `main`: the scale factor environment variables. -/
def scaleFactorEvents (env : Env) : List Event :=
  if (env.platform = Platform.linux ∨ env.platform = Platform.windows ∨
      env.platform = Platform.freebsd) ∧ env.qtScaleFactorSet = false then
    (match env.scaleFactor with
     | ScaleFactor.unset => []
     | ScaleFactor.one => [Event.qputenv "QT_SCALE_FACTOR" "1"]
     | ScaleFactor.other text => [Event.qputenv "QT_SCALE_FACTOR" text]) ++
    (match env.scaleFactor with
     | ScaleFactor.unset => [Event.qputenv "QT_AUTO_SCREEN_SCALE_FACTOR" "1"]
     | ScaleFactor.one => [Event.qputenv "QT_AUTO_SCREEN_SCALE_FACTOR" "1"]
     | ScaleFactor.other _ => [])
  else []

/-- Lines 155-188 of `main` on the path that passes the guard: from the run
guard to `parser.process`. -/
def mainHead (env : Env) : List Event :=
  [Event.runGuardTryToRun env.tryToRun] ++ scaleFactorEvents env ++
    [Event.qApplicationConstructed,
     Event.setApplicationName "nheko",
     Event.setApplicationVersion env.version,
     Event.setOrganizationName "nheko",
     Event.setAttributeUseHighDpiPixmaps,
     Event.parserProcess]

/-- Lines 190-196 of `main`: application fonts and window icon. -/
def mainFonts : List Event :=
  [Event.addApplicationFont ":/fonts/fonts/OpenSans/OpenSans-Regular.ttf",
   Event.addApplicationFont ":/fonts/fonts/OpenSans/OpenSans-Italic.ttf",
   Event.addApplicationFont ":/fonts/fonts/OpenSans/OpenSans-Bold.ttf",
   Event.addApplicationFont ":/fonts/fonts/OpenSans/OpenSans-Semibold.ttf",
   Event.addApplicationFont ":/fonts/fonts/EmojiOne/emojione-android.ttf",
   Event.setWindowIcon ":/logos/nheko.png"]

/-- Lines 214-259 of `main`: from the font setting to the event loop; the
trace holds the steps of these lines only. -/
def mainWindowPhase (env : Env) (stored : QSettings) : Run :=
  let settings :=
    if QVariant.toInt (stored.value "font/size") = 0 then stored.setValue "font/size" "12"
    else stored
  let startInTray :=
    if settings.contains "user/window/start_in_tray" then
      QVariant.toBool (settings.value "user/window/start_in_tray")
    else false
  let tray :=
    if settings.contains "user/window/tray" then QVariant.toBool (settings.value "user/window/tray")
    else true
  { trace :=
      [Event.setFont "Open Sans" (QVariant.toInt (settings.value "font/size")),
       Event.installTranslator ("qt_" ++ env.lang),
       Event.installTranslator ("nheko_" ++ env.lang),
       Event.mainWindowConstructed,
       Event.mainWindowMove] ++
      (if !startInTray || !tray then [Event.mainWindowShow] else []) ++
      [Event.connectAboutToQuit] ++
      (if env.platform = Platform.mac then [Event.macHelperMenus] else []) ++
      [Event.uiInfo ("starting nheko " ++ env.version), Event.appExec],
    outcome := Outcome.returned env.execCode,
    settings := settings }

/-- Lines 201-259 of `main`: everything after `http::init`; the trace holds the
steps of these lines only. -/
def mainAfterInit (env : Env) (stored : QSettings) : Run :=
  if !env.mkpathOk then
    { trace := [Event.createCacheDirectory env.mkpathOk],
      outcome := Outcome.uncaught ("Unable to create state directory:" ++ env.cacheLocation),
      settings := stored }
  else if !env.logInitOk then
    { trace :=
        [Event.createCacheDirectory env.mkpathOk,
         Event.registerSignalHandlers,
         Event.nhlogInit (env.cacheLocation ++ "/nheko.log") env.logInitOk],
      outcome := Outcome.exited 1,
      settings := stored }
  else
    let window := mainWindowPhase env stored
    { trace :=
        [Event.createCacheDirectory env.mkpathOk,
         Event.registerSignalHandlers,
         Event.nhlogInit (env.cacheLocation ++ "/nheko.log") env.logInitOk] ++ window.trace,
      outcome := window.outcome,
      settings := window.settings }

/-- Embedding of `main`. -/
def main (env : Env) : Run :=
  if !env.tryToRun then
    { trace :=
        [Event.runGuardTryToRun env.tryToRun,
         Event.qApplicationConstructed,
         Event.msgBoxSetText "Another instance of Nheko is running",
         Event.msgBoxExec],
      outcome := Outcome.returned 0,
      settings := env.settings }
  else
    match env.parserExit with
    | some code =>
      { trace := mainHead env, outcome := Outcome.exited code, settings := env.settings }
    | none =>
      let proxy := setupProxy env.settings
      let rest := mainAfterInit env proxy.settings
      { trace := mainHead env ++ mainFonts ++ proxy.events ++ [Event.httpInit] ++ rest.trace,
        outcome := rest.outcome,
        settings := rest.settings }

/-- Embedding of the `aboutToQuit` handler connected at the end of `main`;
`clientPresent` tells whether `http::client()` is non-null. -/
def aboutToQuitHandler (clientPresent : Bool) : List Event :=
  [Event.saveCurrentWindowSize] ++
    (if clientPresent then
      [Event.netDebug "shutting down all I/O threads & open connections",
       Event.clientClose true,
       Event.netDebug "bye"]
    else [])

/-! ## Definitions used by the proofs -/

/-- One step of the transformation, for the proofs: the value of `old`, when
present, moves to `new`. -/
def moveKey (s : QSettings) (old new : String) : QSettings :=
  if s.contains old then (s.setValue new (QVariant.toString (s.value old))).remove old else s

/-- A store in the new format with every key of the configuration comment. -/
def newFormatStore : QSettings :=
  QSettings.ofList
    [("user/proxy/type", "socks5"),
     ("user/proxy/host", "proxy.example"),
     ("user/proxy/port", "1080"),
     ("user/proxy/user", "alice"),
     ("user/proxy/password", "secret")]

/-- A run environment on Linux with the given guard result and settings. -/
def linuxEnv (tryToRun : Bool) (settings : QSettings) : Env :=
  { platform := Platform.linux, tryToRun := tryToRun, qtScaleFactorSet := false,
    scaleFactor := ScaleFactor.unset, version := "0.4.0", parserExit := none,
    settings := settings, cacheLocation := "/home/user/.cache/nheko/nheko",
    mkpathOk := true, logInitOk := true, lang := "en_US", execCode := 0 }

/-! ## Lemmas on trimming -/

theorem dropWhile_head_false {α : Type} (p : α → Bool) :
    ∀ (l : List α) (c : α), (l.dropWhile p).head? = some c → p c = false := by
  intro l
  induction l with
  | nil => intro c h; simp at h
  | cons a l ih =>
    intro c h
    by_cases ha : p a = true
    · rw [List.dropWhile_cons_of_pos ha] at h
      exact ih c h
    · rw [List.dropWhile_cons_of_neg ha] at h
      simp at h
      subst h
      simpa using ha

theorem dropWhile_getLast {α : Type} (p : α → Bool) :
    ∀ (l : List α) (c : α), l.getLast? = some c → p c = false →
      (l.dropWhile p).getLast? = some c := by
  intro l
  induction l with
  | nil => intro c h; simp at h
  | cons a l ih =>
    intro c h hc
    by_cases ha : p a = true
    · rw [List.dropWhile_cons_of_pos ha]
      cases l with
      | nil =>
        simp at h
        subst h
        rw [ha] at hc
        exact absurd hc (by simp)
      | cons b l =>
        rw [List.getLast?_cons_cons] at h
        exact ih c h hc
    · rw [List.dropWhile_cons_of_neg ha]
      exact h

theorem reverse_dropWhile_reverse_of_getLast {α : Type} (p : α → Bool) (d : List α) (c : α)
    (h : d.getLast? = some c) (hc : p c = false) :
    (d.reverse.dropWhile p).reverse = d := by
  have hh : d.reverse.head? = some c := by rw [List.head?_reverse]; exact h
  cases hr : d.reverse with
  | nil => rw [hr] at hh; simp at hh
  | cons a r =>
    rw [hr] at hh
    simp at hh
    subst hh
    rw [List.dropWhile_cons_of_neg (by simp [hc]), ← hr, List.reverse_reverse]

theorem reverse_dropWhile_reverse_is_initial {α : Type} (p : α → Bool) (d : List α) :
    (d.reverse.dropWhile p).reverse <+: d := by
  have h := List.dropWhile_suffix p (l := d.reverse)
  have h2 := List.reverse_prefix.mpr h
  rwa [List.reverse_reverse] at h2

theorem trimmedChars_head (l : List Char) (c : Char)
    (h : (trimmedChars l).head? = some c) : QChar.isSpace c = false := by
  unfold trimmedChars at h
  obtain ⟨t, ht⟩ := reverse_dropWhile_reverse_is_initial QChar.isSpace (l.dropWhile QChar.isSpace)
  apply dropWhile_head_false QChar.isSpace l c
  rw [← ht]
  cases hx : ((l.dropWhile QChar.isSpace).reverse.dropWhile QChar.isSpace).reverse with
  | nil => rw [hx] at h; simp at h
  | cons a r => rw [hx] at h; simpa using h

theorem trimmedChars_getLast (l : List Char) (c : Char)
    (h : (trimmedChars l).getLast? = some c) : QChar.isSpace c = false := by
  unfold trimmedChars at h
  rw [List.getLast?_reverse] at h
  exact dropWhile_head_false QChar.isSpace _ c h

theorem trimmedChars_of_ends (l : List Char) (a c : Char)
    (ha : l.head? = some a) (hsa : QChar.isSpace a = false)
    (hc : l.getLast? = some c) (hsc : QChar.isSpace c = false) :
    trimmedChars l = l := by
  unfold trimmedChars
  have hd : l.dropWhile QChar.isSpace = l := by
    cases l with
    | nil => rfl
    | cons b r =>
      simp at ha
      subst ha
      exact List.dropWhile_cons_of_neg (by simp [hsa])
  rw [hd]
  exact reverse_dropWhile_reverse_of_getLast QChar.isSpace l c hc hsc

theorem trimmedChars_idem (l : List Char) : trimmedChars (trimmedChars l) = trimmedChars l := by
  cases hx : trimmedChars l with
  | nil => rfl
  | cons a r =>
    have h1 : (trimmedChars l).head? = some a := by rw [hx]; rfl
    obtain ⟨c, hc⟩ : ∃ c, (a :: r).getLast? = some c :=
      ⟨(a :: r).getLast (by simp), List.getLast?_eq_getLast _ (by simp)⟩
    have h2 : (trimmedChars l).getLast? = some c := by rw [hx]; exact hc
    exact trimmedChars_of_ends (a :: r) a c rfl (trimmedChars_head l a h1) hc
      (trimmedChars_getLast l c h2)

theorem trimmedChars_ne_nil_of_getLast (l : List Char) (c : Char)
    (hc : l.getLast? = some c) (hsc : QChar.isSpace c = false) :
    trimmedChars l ≠ [] := by
  unfold trimmedChars
  have h1 := dropWhile_getLast QChar.isSpace l c hc hsc
  rw [reverse_dropWhile_reverse_of_getLast QChar.isSpace _ c h1 hsc]
  intro h
  rw [h] at h1
  simp at h1

/-! ## The send button -/

theorem isEmpty_eq_true_iff (s : String) : QString.isEmpty s = true ↔ s = "" := by
  cases s with
  | mk l =>
    cases l with
    | nil => exact ⟨fun _ => rfl, fun _ => rfl⟩
    | cons a r =>
      simp [QString.isEmpty]
      intro h
      have := congrArg String.data h
      simp at this

theorem startsWith_emote (t : String) (h : QString.startsWith t EMOTE_COMMAND = true) :
    ∃ rest, t.data = '/' :: 'm' :: 'e' :: ' ' :: rest := by
  unfold QString.startsWith at h
  obtain ⟨rest, hr⟩ := List.isPrefixOf_iff_prefix.mp h
  exact ⟨rest, hr.symm⟩

theorem right_after_emote (rest : List Char) :
    QString.right ⟨'/' :: 'm' :: 'e' :: ' ' :: rest⟩
        (QString.size ⟨'/' :: 'm' :: 'e' :: ' ' :: rest⟩ - QString.size EMOTE_COMMAND) =
      ⟨rest⟩ := by
  have hs : QString.size EMOTE_COMMAND = 4 := rfl
  have hl : QString.size ⟨'/' :: 'm' :: 'e' :: ' ' :: rest⟩ = (rest.length : Int) + 4 := by
    simp [QString.size]
    omega
  rw [hs, hl]
  unfold QString.right
  rw [hl]
  have hn : ¬ ((rest.length : Int) + 4 - 4 < 0 ∨ (rest.length : Int) + 4 ≤ (rest.length : Int) + 4 - 4) := by
    omega
  rw [if_neg hn]
  have hd : ('/' :: 'm' :: 'e' :: ' ' :: rest).length - ((rest.length : Int) + 4 - 4).toNat = 4 := by
    simp only [List.length_cons]
    omega
  show (⟨List.drop _ ('/' :: 'm' :: 'e' :: ' ' :: rest)⟩ : String) = ⟨rest⟩
  rw [hd]
  rfl

theorem emote_rest_getLast (x rest : List Char)
    (h : trimmedChars x = '/' :: 'm' :: 'e' :: ' ' :: rest) :
    ∃ c, rest.getLast? = some c ∧ QChar.isSpace c = false := by
  cases rest with
  | nil =>
    have h1 : (trimmedChars x).getLast? = some ' ' := by rw [h]; rfl
    have h2 := trimmedChars_getLast x ' ' h1
    exact absurd h2 (by decide)
  | cons b r =>
    obtain ⟨c, hc⟩ : ∃ c, (b :: r).getLast? = some c :=
      ⟨(b :: r).getLast (by simp), List.getLast?_eq_getLast _ (by simp)⟩
    refine ⟨c, hc, ?_⟩
    apply trimmedChars_getLast x c
    rw [h]
    simpa [List.getLast?_cons_cons] using hc

theorem parseEmoteCommand_trimmed (input : String) (rest : List Char)
    (h : (QString.trimmed input).data = '/' :: 'm' :: 'e' :: ' ' :: rest) :
    parseEmoteCommand (QString.trimmed input) = ⟨trimmedChars rest⟩ ∧ trimmedChars rest ≠ [] := by
  have hx : trimmedChars input.data = '/' :: 'm' :: 'e' :: ' ' :: rest := h
  obtain ⟨c, hc, hsc⟩ := emote_rest_getLast input.data rest hx
  have hne := trimmedChars_ne_nil_of_getLast rest c hc hsc
  refine ⟨?_, hne⟩
  have ht : QString.trimmed input = ⟨'/' :: 'm' :: 'e' :: ' ' :: rest⟩ := by
    unfold QString.trimmed; rw [hx]
  unfold parseEmoteCommand
  rw [ht, right_after_emote]
  have he : QString.isEmpty (QString.trimmed ⟨rest⟩) = false := by
    cases hq : trimmedChars rest with
    | nil => exact absurd hq hne
    | cons a r => simp [QString.isEmpty, QString.trimmed, hq]
  show (if (!QString.isEmpty (QString.trimmed ⟨rest⟩)) = true then QString.trimmed ⟨rest⟩ else "") = _
  rw [he]
  rfl

theorem onSendButtonClicked_eq (input : String) :
    onSendButtonClicked input =
      (if QString.trimmed input = "" then { emitted := [], input := input }
       else if QString.startsWith (QString.trimmed input) "/me " = true then
         { emitted :=
             [Signal.sendEmoteMessage (QString.trimmed ⟨(QString.trimmed input).data.drop 4⟩)],
           input := "" }
       else { emitted := [Signal.sendTextMessage (QString.trimmed input)], input := "" }) := by
  by_cases h1 : QString.trimmed input = ""
  · have h1b : QString.isEmpty (QString.trimmed input) = true := (isEmpty_eq_true_iff _).mpr h1
    rw [if_pos h1]
    simp only [onSendButtonClicked, h1b, if_true]
  · have h1b : QString.isEmpty (QString.trimmed input) = false := by
      cases hq : QString.isEmpty (QString.trimmed input) with
      | false => rfl
      | true => exact absurd ((isEmpty_eq_true_iff _).mp hq) h1
    rw [if_neg h1]
    by_cases h2 : QString.startsWith (QString.trimmed input) EMOTE_COMMAND = true
    · obtain ⟨rest, hr⟩ := startsWith_emote _ h2
      obtain ⟨hp, hne⟩ := parseEmoteCommand_trimmed input rest hr
      have h2b : QString.startsWith (QString.trimmed input) "/me " = true := h2
      have he : QString.isEmpty (⟨trimmedChars rest⟩ : String) = false := by
        cases hq : trimmedChars rest with
        | nil => exact absurd hq hne
        | cons a r => simp [QString.isEmpty]
      have hd : QString.trimmed ⟨(QString.trimmed input).data.drop 4⟩ = ⟨trimmedChars rest⟩ := by
        rw [hr]
        rfl
      rw [if_pos h2b, hd]
      simp only [onSendButtonClicked, h1b, h2, hp, he, if_true, Bool.false_eq_true, if_false,
        Bool.not_false]
    · have h2b : ¬ QString.startsWith (QString.trimmed input) "/me " = true := h2
      rw [if_neg h2b]
      simp only [onSendButtonClicked, h1b, h2, Bool.false_eq_true, if_false]


theorem trimmed_clean (l : List Char) :
    QString.trimmed ⟨trimmedChars l⟩ = ⟨trimmedChars l⟩ ∧
    (∀ c, (trimmedChars l).head? = some c → QChar.isSpace c = false) ∧
    (∀ c, (trimmedChars l).getLast? = some c → QChar.isSpace c = false) := by
  refine ⟨?_, trimmedChars_head l, trimmedChars_getLast l⟩
  show (⟨trimmedChars (trimmedChars l)⟩ : String) = _
  rw [trimmedChars_idem]

/-- C6: with `t` the trimmed text of the input field, `onSendButtonClicked`
emits nothing and keeps the field when `t` is empty; when `t` starts with
"/me " it emits only `sendEmoteMessage` with the trimmed remainder of `t` after
its first 4 characters; otherwise it emits exactly `sendTextMessage t` (so
"/me" alone goes out as a text message); the field is cleared in both
non-empty cases. -/
theorem onSendButtonClicked_behaviour (input : String) :
    onSendButtonClicked input =
      (if QString.trimmed input = "" then { emitted := [], input := input }
       else if QString.startsWith (QString.trimmed input) "/me " = true then
         { emitted :=
             [Signal.sendEmoteMessage (QString.trimmed ⟨(QString.trimmed input).data.drop 4⟩)],
           input := "" }
       else { emitted := [Signal.sendTextMessage (QString.trimmed input)], input := "" })
    ∧ onSendButtonClicked "/me" = { emitted := [Signal.sendTextMessage "/me"], input := "" } :=
  ⟨onSendButtonClicked_eq input, by decide⟩

/-- C7: when the trimmed input is not empty, `onSendButtonClicked` emits
exactly one signal, whose payload is not empty and has no whitespace at its
start or end; and when the trimmed input starts with "/me ",
`parseEmoteCommand` returns a non-empty string, so its empty-string branch is
not taken. -/
theorem onSendButtonClicked_one_clean_signal (input : String)
    (h : QString.trimmed input ≠ "") :
    (∃ sig, (onSendButtonClicked input).emitted = [sig] ∧ sig.payload ≠ "" ∧
      QString.trimmed sig.payload = sig.payload ∧
      (∀ c, sig.payload.data.head? = some c → QChar.isSpace c = false) ∧
      (∀ c, sig.payload.data.getLast? = some c → QChar.isSpace c = false)) ∧
    (QString.startsWith (QString.trimmed input) EMOTE_COMMAND = true →
      parseEmoteCommand (QString.trimmed input) ≠ "") := by
  constructor
  · rw [onSendButtonClicked_eq, if_neg h]
    by_cases h2 : QString.startsWith (QString.trimmed input) "/me " = true
    · rw [if_pos h2]
      obtain ⟨rest, hr⟩ := startsWith_emote _ h2
      obtain ⟨_, hne⟩ := parseEmoteCommand_trimmed input rest hr
      have hd : QString.trimmed ⟨(QString.trimmed input).data.drop 4⟩ = ⟨trimmedChars rest⟩ := by
        rw [hr]
        rfl
      rw [hd]
      refine ⟨Signal.sendEmoteMessage ⟨trimmedChars rest⟩, rfl, ?_, trimmed_clean rest⟩
      intro hq
      exact hne (congrArg String.data hq)
    · rw [if_neg h2]
      exact ⟨Signal.sendTextMessage (QString.trimmed input), rfl, h, trimmed_clean input.data⟩
  · intro h2
    obtain ⟨rest, hr⟩ := startsWith_emote _ h2
    obtain ⟨hp, hne⟩ := parseEmoteCommand_trimmed input rest hr
    rw [hp]
    intro hq
    exact hne (congrArg String.data hq)

/-- Witness for C7 at the input "  /me  waves  ". -/
theorem onSendButtonClicked_one_clean_signal_witness :
    QString.trimmed "  /me  waves  " ≠ "" ∧
    ((∃ sig, (onSendButtonClicked "  /me  waves  ").emitted = [sig] ∧ sig.payload ≠ "" ∧
      QString.trimmed sig.payload = sig.payload ∧
      (∀ c, sig.payload.data.head? = some c → QChar.isSpace c = false) ∧
      (∀ c, sig.payload.data.getLast? = some c → QChar.isSpace c = false)) ∧
    (QString.startsWith (QString.trimmed "  /me  waves  ") EMOTE_COMMAND = true →
      parseEmoteCommand (QString.trimmed "  /me  waves  ") ≠ "")) :=
  ⟨by decide, onSendButtonClicked_one_clean_signal "  /me  waves  " (by decide)⟩

/-! ## The settings store and the old proxy format -/

theorem setValue_entry_ne (s : QSettings) (key value k : String) (h : k ≠ key) :
    (s.setValue key value).entry k = s.entry k := by
  simp [QSettings.setValue, h]

theorem moveKey_entry_old (s : QSettings) (old new : String) :
    (moveKey s old new).entry old = none := by
  unfold moveKey
  by_cases h : s.contains old = true
  · simp [h, QSettings.remove]
  · simp only [h, Bool.false_eq_true, if_false]
    simpa [QSettings.contains] using h

theorem transformOldFormat_eq (stored : QSettings)
    (h : stored.contains "user/proxy/socks/host" = true) :
    transformOldFormat stored =
      (moveKey (moveKey (moveKey (moveKey stored "user/proxy/socks/host" "user/proxy/host")
        "user/proxy/socks/port" "user/proxy/port")
        "user/proxy/socks/user" "user/proxy/user")
        "user/proxy/socks/password" "user/proxy/password").setValue "user/proxy/type" "socks5" := by
  unfold transformOldFormat
  rw [if_pos h]
  have : moveKey stored "user/proxy/socks/host" "user/proxy/host" =
      (stored.setValue "user/proxy/host"
        (QVariant.toString (stored.value "user/proxy/socks/host"))).remove
          "user/proxy/socks/host" := by
    unfold moveKey
    rw [if_pos h]
  rw [this]
  rfl

theorem fillProxy_password (settings : QSettings) (proxy : QNetworkProxy)
    (h : settings.contains "user/proxy/socks/password" = false) :
    (fillProxy settings proxy).password = proxy.password := by
  unfold fillProxy
  simp only [QNetworkProxy.setPort, h, Bool.false_eq_true, if_false]
  split_ifs <;> rfl

theorem setupProxy_password_after_old_format (stored : QSettings)
    (h : stored.contains "user/proxy/socks/host" = true) (proxy : QNetworkProxy)
    (hp : (setupProxy stored).applicationProxy = some proxy) : proxy.password = "" := by
  have hc : (transformOldFormat stored).contains "user/proxy/socks/password" = false := by
    rw [transformOldFormat_eq stored h]
    unfold QSettings.contains
    rw [setValue_entry_ne _ _ _ _ (by decide), moveKey_entry_old]
    rfl
  unfold setupProxy at hp
  simp only [] at hp
  split_ifs at hp with h0 h1 h2
  · simp only [Option.some.injEq] at hp
    subst hp
    rw [fillProxy_password _ _ hc]
    rfl
  · simp only [Option.some.injEq] at hp
    subst hp
    rw [fillProxy_password _ _ hc]
    rfl

/-- C2 fails on the code at `newFormatStore`: the store holds
`user/proxy/host`, the valid type "socks5", `user/proxy/user` and
`user/proxy/password`, and the installed proxy carries the user name but an
empty password, because the code tests `user/proxy/socks/password`. -/
theorem setupProxy_newFormatStore_drops_password :
    newFormatStore.contains "user/proxy/host" = true ∧
    QVariant.toString (newFormatStore.value "user/proxy/type") = "socks5" ∧
    newFormatStore.value "user/proxy/user" = some "alice" ∧
    newFormatStore.value "user/proxy/password" = some "secret" ∧
    (setupProxy newFormatStore).applicationProxy =
      some { type := ProxyType.Socks5Proxy, hostName := "proxy.example", port := 1080,
             user := "alice", password := "" } := by
  decide

/-! ## Start-up order -/

theorem mainHead_no_network (env : Env) :
    Event.httpInit ∉ mainHead env ∧ Event.mainWindowConstructed ∉ mainHead env := by
  unfold mainHead scaleFactorEvents
  constructor <;> (split_ifs <;> cases env.scaleFactor <;> simp)

theorem mainFonts_no_network :
    Event.httpInit ∉ mainFonts ∧ Event.mainWindowConstructed ∉ mainFonts := by
  decide

theorem proxy_events_no_network (r : ProxySetup) :
    Event.httpInit ∉ r.events ∧ Event.mainWindowConstructed ∉ r.events := by
  unfold ProxySetup.events
  constructor <;> (cases r.applicationProxy <;> simp)

theorem proxy_events_installs (r : ProxySetup) (proxy : QNetworkProxy)
    (h : r.applicationProxy = some proxy) : Event.setApplicationProxy proxy ∈ r.events := by
  unfold ProxySetup.events
  rw [h]
  simp

theorem mainAfterInit_no_http_init (env : Env) (stored : QSettings) :
    Event.httpInit ∉ (mainAfterInit env stored).trace := by
  unfold mainAfterInit mainWindowPhase
  split_ifs <;> simp

/-- C3: when `RunGuard::tryToRun()` returns false, `main` only shows the
"Another instance of Nheko is running" message box and returns 0; no step of
`setupProxy`, no `http::init`, no `createCacheDirectory`, no logging
initialisation and no `MainWindow` construction occurs, and the settings are
left as they were. -/
theorem main_second_instance (env : Env) (h : env.tryToRun = false) :
    (main env).trace =
      [Event.runGuardTryToRun false,
       Event.qApplicationConstructed,
       Event.msgBoxSetText "Another instance of Nheko is running",
       Event.msgBoxExec] ∧
    (main env).outcome = Outcome.returned 0 ∧
    (main env).settings = env.settings ∧
    (∀ e ∈ (main env).trace,
      (∀ enable, e ≠ Event.setUseSystemConfiguration enable) ∧
      (∀ msg, e ≠ Event.netError msg) ∧
      (∀ proxy, e ≠ Event.setApplicationProxy proxy) ∧
      e ≠ Event.httpInit ∧
      (∀ created, e ≠ Event.createCacheDirectory created) ∧
      (∀ path ok, e ≠ Event.nhlogInit path ok) ∧
      e ≠ Event.mainWindowConstructed) := by
  have ht : (main env).trace =
      [Event.runGuardTryToRun false,
       Event.qApplicationConstructed,
       Event.msgBoxSetText "Another instance of Nheko is running",
       Event.msgBoxExec] := by
    unfold main
    simp [h]
  refine ⟨ht, ?_, ?_, ?_⟩
  · unfold main
    simp [h]
  · unfold main
    simp [h]
  · intro e he
    rw [ht] at he
    simp only [List.mem_cons, List.mem_singleton, List.not_mem_nil, or_false] at he
    rcases he with he | he | he | he <;> subst he <;> simp

/-- Witness for C3: a second instance started with `newFormatStore`. -/
theorem main_second_instance_witness :
    (linuxEnv false newFormatStore).tryToRun = false ∧
    (main (linuxEnv false newFormatStore)).trace =
      [Event.runGuardTryToRun false,
       Event.qApplicationConstructed,
       Event.msgBoxSetText "Another instance of Nheko is running",
       Event.msgBoxExec] ∧
    (main (linuxEnv false newFormatStore)).outcome = Outcome.returned 0 :=
  ⟨rfl, (main_second_instance (linuxEnv false newFormatStore) rfl).1,
    (main_second_instance (linuxEnv false newFormatStore) rfl).2.1⟩

/-- C4: in a run of `main` that passes the single-instance guard, the steps of
`setupProxy` (with the installation of any configured application proxy among
them) come as one block right before the only `http::init`; neither
`http::init` nor the construction of `MainWindow` occurs before or inside that
block; and a run that leaves at `parser.process` performs neither. -/
theorem main_proxy_before_http_init (env : Env) (h : env.tryToRun = true) :
    (env.parserExit = none →
      ∃ pre post,
        (main env).trace = pre ++ (setupProxy env.settings).events ++ Event.httpInit :: post ∧
        Event.httpInit ∉ pre ∧ Event.mainWindowConstructed ∉ pre ∧
        Event.httpInit ∉ (setupProxy env.settings).events ∧
        Event.mainWindowConstructed ∉ (setupProxy env.settings).events ∧
        Event.httpInit ∉ post ∧
        (∀ proxy, (setupProxy env.settings).applicationProxy = some proxy →
          Event.setApplicationProxy proxy ∈ (setupProxy env.settings).events)) ∧
    (env.parserExit ≠ none →
      Event.httpInit ∉ (main env).trace ∧ Event.mainWindowConstructed ∉ (main env).trace) := by
  constructor
  · intro hp
    refine ⟨mainHead env ++ mainFonts,
      (mainAfterInit env (setupProxy env.settings).settings).trace, ?_, ?_, ?_,
      (proxy_events_no_network _).1, (proxy_events_no_network _).2,
      mainAfterInit_no_http_init _ _, proxy_events_installs _⟩
    · unfold main
      simp [h, hp]
    · simp [(mainHead_no_network env).1, mainFonts_no_network.1]
    · simp [(mainHead_no_network env).2, mainFonts_no_network.2]
  · intro hp
    have ht : (main env).trace = mainHead env := by
      unfold main
      cases hq : env.parserExit with
      | none => exact absurd hq hp
      | some code => simp [h]
    rw [ht]
    exact mainHead_no_network env

/-- Witness for C4: a first instance started with `newFormatStore`. -/
theorem main_proxy_before_http_init_witness :
    (linuxEnv true newFormatStore).tryToRun = true ∧
    ∃ pre post,
      (main (linuxEnv true newFormatStore)).trace =
        pre ++ (setupProxy newFormatStore).events ++ Event.httpInit :: post ∧
      Event.httpInit ∉ pre ∧ Event.mainWindowConstructed ∉ pre ∧
      Event.httpInit ∉ (setupProxy newFormatStore).events ∧
      Event.mainWindowConstructed ∉ (setupProxy newFormatStore).events ∧
      Event.httpInit ∉ post ∧
      (∀ proxy, (setupProxy newFormatStore).applicationProxy = some proxy →
        Event.setApplicationProxy proxy ∈ (setupProxy newFormatStore).events) :=
  ⟨rfl, (main_proxy_before_http_init (linuxEnv true newFormatStore) rfl).1 rfl⟩

/-! ## Shutdown -/

/-- C8: the `aboutToQuit` handler saves the window size first, in every state;
it calls `close(true)` on the client exactly once when `http::client()` is
non-null and performs no client operation at all when it is null. -/
theorem aboutToQuitHandler_shutdown (clientPresent : Bool) :
    (aboutToQuitHandler clientPresent).head? = some Event.saveCurrentWindowSize ∧
    (aboutToQuitHandler clientPresent).count Event.saveCurrentWindowSize = 1 ∧
    (aboutToQuitHandler clientPresent).tail.count (Event.clientClose true) =
      (if clientPresent then 1 else 0) ∧
    ((∃ force, Event.clientClose force ∈ aboutToQuitHandler clientPresent) ↔
      clientPresent = true) ∧
    Event.clientClose false ∉ aboutToQuitHandler clientPresent ∧
    aboutToQuitHandler false = [Event.saveCurrentWindowSize] := by
  cases clientPresent
  · refine ⟨by decide, by decide, by decide, ?_, by decide, by decide⟩
    simp [aboutToQuitHandler]
  · refine ⟨by decide, by decide, by decide, ?_, by decide, by decide⟩
    simp [aboutToQuitHandler]

end Nheko
